import Mathlib

set_option maxRecDepth 4096

/- Shallow embedding of the MyPetSync backend core: the appointments service
   (appointments.service.ts: query building, pagination, tutor- and
   provider-scoped listing, creation with best-effort chat-room provisioning,
   status updates, daily counters) and the chat service (chat.service.ts:
   room resolution and messaging).  External collaborators (pet / tutor /
   provider / review lookup services, the JS date and number parsers, the
   regex engine) live in an explicit environment record; the document store
   is modelled as in-memory lists. -/

/-- Error outcomes surfaced by the services: `notFound` models a thrown
`NotFoundException` with its message, `castError` models the `BSONError`
thrown by `new Types.ObjectId(...)` on a malformed id (mongoose also accepts
12-byte strings; only the 24-hex form is modelled, so every id the theorems
call well-formed is genuinely accepted by the source), and `storageFailure`
models a transient rejection from an external lookup or store call. -/
inductive SvcError where
  | notFound (msg : String)
  | castError
  | storageFailure
deriving DecidableEq, Repr

/-- JS string truthiness as used by the service's `if (q.x)` guards:
`undefined` (none) and the empty string are falsy, every other string is
truthy. -/
def presentStr : Option String → Option String
  | some s => if s = "" then none else some s
  | none => none

/-- Hexadecimal digit test, both cases. -/
def isHexDigit (c : Char) : Bool :=
  c.isDigit || ('a' ≤ c && c ≤ 'f') || ('A' ≤ c && c ≤ 'F')

/-- Mongoose `Types.ObjectId.isValid` on the 24-character hexadecimal form. -/
def objectIdValid (s : String) : Bool :=
  s.length == 24 && s.toList.all isHexDigit

/-- Constructor `new Types.ObjectId(s)`: returns the id (ids are kept as strings) or
throws a cast error on a malformed input. -/
def toObjectId (s : String) : Except SvcError String :=
  if objectIdValid s then .ok s else .error .castError

/-- Value of the longest digit prefix of a character list, with the running
accumulator; `none` when no digit has been consumed yet. -/
def digitsPrefixVal : List Char → Option Nat → Option Nat
  | [], acc => acc
  | c :: cs, acc =>
    if c.isDigit then digitsPrefixVal cs (some (10 * acc.getD 0 + (c.toNat - 48)))
    else acc

/-- JS `parseInt(s, 10)`: skip leading spaces, optional sign, then the
longest digit prefix; `none` models `NaN` (no digits at all). -/
def parseIntJS (s : String) : Option Int :=
  match s.toList.dropWhile (fun c => c = ' ') with
  | '-' :: cs => (digitsPrefixVal cs none).map (fun n => -(n : Int))
  | '+' :: cs => (digitsPrefixVal cs none).map (fun n => (n : Int))
  | cs => (digitsPrefixVal cs none).map (fun n => (n : Int))

/-- JS `Math.max(x, b)` on a possibly-NaN (`none`) left operand: NaN
propagates. -/
def jsMaxI (o : Option Int) (b : Int) : Option Int :=
  o.map (fun n => max n b)

/-- JS `Math.min(x, b)` on a possibly-NaN left operand. -/
def jsMinI (o : Option Int) (b : Int) : Option Int :=
  o.map (fun n => min n b)

/-- JS subtraction with a possibly-NaN left operand. -/
def jsSubI (o : Option Int) (b : Int) : Option Int :=
  o.map (fun n => n - b)

/-- JS multiplication, NaN-propagating on either side. -/
def jsMulI (a b : Option Int) : Option Int :=
  a.bind (fun x => b.map (fun y => x * y))

/-- JS `Math.ceil(total / limit)` for a natural total and a possibly-NaN
limit; the service only ever calls it with a clamped limit in `[1,100]`
(the nonpositive branch is unreachable there). -/
def jsCeilDiv (total : Nat) (limit : Option Int) : Option Int :=
  limit.map (fun l => if l ≤ 0 then 0 else ((total + l.toNat - 1) / l.toNat : Nat))

/-- A local calendar instant: an abstract local-day index and the
millisecond offset within that day.  `new Date(y, m, d)` for the day of an
instant is `⟨day, 0⟩` and `new Date(y, m, d + 1)` is `⟨day + 1, 0⟩`;
instants compare lexicographically. -/
structure LocalDT where
  day : Int
  ms : Int
deriving DecidableEq, Repr

/-- Strict chronological order on local instants. -/
def dtLtP (a b : LocalDT) : Prop :=
  a.day < b.day ∨ (a.day = b.day ∧ a.ms < b.ms)

instance (a b : LocalDT) : Decidable (dtLtP a b) := by
  unfold dtLtP; infer_instance

/-- Non-strict chronological order on local instants. -/
def dtLeP (a b : LocalDT) : Prop :=
  dtLtP a b ∨ a = b

instance (a b : LocalDT) : Decidable (dtLeP a b) := by
  unfold dtLeP; infer_instance

/-- A stored date compared against a lower bound with `$gte`; a missing or
invalid stored date (`none`) satisfies no comparison. -/
def dtGeBound (dt : Option LocalDT) (b : LocalDT) : Bool :=
  match dt with
  | some d => decide (dtLeP b d)
  | none => false

/-- A stored date compared against a strict upper bound with `$lt`. -/
def dtLtBound (dt : Option LocalDT) (b : LocalDT) : Bool :=
  match dt with
  | some d => decide (dtLtP d b)
  | none => false

/-- A stored date compared against an optional query bound with `$gte`:
an Invalid-Date bound (`none`, from `new Date(<garbage>)`) compares NaN
and matches nothing. -/
def dtGeOptBound (dt : Option LocalDT) (b : Option LocalDT) : Bool :=
  match b with
  | some bb => dtGeBound dt bb
  | none => false

/-- A stored date compared against an optional query bound with `$lte`. -/
def dtLeOptBound (dt : Option LocalDT) (b : Option LocalDT) : Bool :=
  match dt, b with
  | some d, some bb => decide (dtLtP d bb ∨ d = bb)
  | _, _ => false

/-- A stored price compared against an optional numeric bound (`none` is the
NaN produced by `Number(<garbage>)`; NaN comparisons are false). -/
def numGeBound (p : Int) (b : Option Int) : Bool :=
  match b with
  | some bb => decide (bb ≤ p)
  | none => false

/-- A stored price compared against an optional `$lte` numeric bound. -/
def numLeBound (p : Int) (b : Option Int) : Bool :=
  match b with
  | some bb => decide (p ≤ bb)
  | none => false

/-- Modelled from the spec: the Pet record (the pets schema file is not in
the sources); only the fields the appointments service reads — identity,
name (`nome`) and the owning tutor reference. -/
structure PetRec where
  _id : String
  nome : String
  tutorId : Option String
deriving DecidableEq, Repr

/-- Modelled from the spec: the Provider record (providers schema not in
the sources); identity and the optionally linked user account. -/
structure ProviderRec where
  _id : String
  userId : Option String
deriving DecidableEq, Repr

/-- Modelled from the spec: the Tutor record (tutors schema not in the
sources); identity and the optionally linked user account. -/
structure TutorRec where
  _id : String
  userId : Option String
deriving DecidableEq, Repr

/-- Appointment record, after the fields written by
`AppointmentsService.create` / `update`: `dateTime` is `none` when the
stored value came from an unparseable string (JS Invalid Date). -/
structure Appointment where
  _id : String
  pet : String
  provider : String
  service : Option String
  dateTime : Option LocalDT
  duration : Int
  reason : String
  location : String
  price : Int
  status : String
  notes : String
  email : String
  phone : String
  isRated : Bool
  createdAt : Int
deriving DecidableEq, Repr

/-- Chat room record.  Modelled from the spec: the chat-room schema file is
not in the sources; per the spec rooms carry a display name, a participant
set, an `isActive` flag (rooms are created active — deactivation is the
only removal path and no operation in scope flips it) and a last-activity
timestamp. -/
structure ChatRoom where
  _id : String
  name : String
  participants : List String
  isActive : Bool
  updatedAt : Int
deriving DecidableEq, Repr

/-- Message record (schema not in the sources; fields as written by
`ChatService.sendMessage` plus the timestamp the ordering relies on). -/
structure Message where
  _id : String
  roomId : String
  senderId : String
  content : String
  createdAt : Int
deriving DecidableEq, Repr

/-- State owned by the chat service: the two collections, fresh-id
counters and a wall clock used for created/updated timestamps. -/
structure ChatSt where
  rooms : List ChatRoom
  messages : List Message
  nextRoomId : Nat
  nextMsgId : Nat
  now : Int
deriving DecidableEq, Repr

/-- Hex digit character for a value below 16. -/
def hexDigitChar (n : Nat) : Char :=
  if n < 10 then Char.ofNat (48 + n) else Char.ofNat (87 + n)

/-- Hexadecimal digits of `n`, most significant first, with fuel. -/
def hexDigitsAux : Nat → Nat → List Char
  | 0, _ => []
  | fuel + 1, n => if n = 0 then [] else hexDigitsAux fuel (n / 16) ++ [hexDigitChar (n % 16)]

/-- Fresh 24-character hexadecimal object id generated by the store from a
counter. -/
def mkHexId (n : Nat) : String :=
  let ds := hexDigitsAux 24 n
  String.mk (List.replicate (24 - ds.length) '0' ++ ds)

/-- Mapping `ids.map((id) => new Types.ObjectId(id))`: casts every id, throwing on
the first malformed one. -/
def mapObjectIds : List String → Except SvcError (List String)
  | [] => .ok []
  | s :: rest => do
    let o ← toObjectId s
    let os ← mapObjectIds rest
    pure (o :: os)

/-- The `findOne` predicate of `getOrCreateRoomForParticipants`:
an active room whose participant list contains all the requested
participants (`$all` — a superset match, not set equality). -/
def roomMatches (participants : List String) (r : ChatRoom) : Bool :=
  r.isActive && participants.all (fun p => r.participants.contains p)

/-- Embeds `ChatService.getOrCreateRoomForParticipants(userIds, name?)`: cast the
ids, return the first active room containing them all, else create a fresh
active room with those participants and the given (or default) name. -/
def getOrCreateRoomForParticipants (st : ChatSt) (userIds : List String)
    (name : Option String) : Except SvcError (ChatRoom × ChatSt) := do
  let participants ← mapObjectIds userIds
  match st.rooms.find? (roomMatches participants) with
  | some existingRoom => pure (existingRoom, st)
  | none =>
    let room : ChatRoom :=
      { _id := mkHexId st.nextRoomId
        name := name.getD "Atendimento"
        participants := participants
        isActive := true
        updatedAt := st.now }
    pure (room, { st with rooms := st.rooms ++ [room], nextRoomId := st.nextRoomId + 1 })

/-- Payload of `ChatService.sendMessage`. -/
structure SendMessageDto where
  roomId : String
  content : String
deriving DecidableEq, Repr

/-- Marks the first element satisfying `p` with `f`, leaving the rest
untouched — the effect of a single-document update on the store. -/
def updateFirst (p : α → Bool) (f : α → α) : List α → List α
  | [] => []
  | x :: xs => if p x then f x :: xs else x :: updateFirst p f xs

/-- Embeds `ChatService.sendMessage(senderId, dto)`: NotFound on a malformed room
id, NotFound when no room has that id, otherwise persist the message and
bump the room's `updatedAt`. -/
def sendMessage (st : ChatSt) (senderId : String) (dto : SendMessageDto) :
    Except SvcError (Message × ChatSt) := do
  if !objectIdValid dto.roomId then throw (.notFound "Sala não encontrada")
  match st.rooms.find? (fun r => r._id == dto.roomId) with
  | none => throw (.notFound "Sala não encontrada")
  | some room =>
    let sid ← toObjectId senderId
    let message : Message :=
      { _id := mkHexId st.nextMsgId
        roomId := room._id
        senderId := sid
        content := dto.content
        createdAt := st.now }
    pure (message,
      { st with
        messages := st.messages ++ [message]
        rooms := updateFirst (fun r => r._id == room._id)
          (fun r => { r with updatedAt := st.now }) st.rooms
        nextMsgId := st.nextMsgId + 1
        now := st.now + 1 })

/-- Ascending creation-time order on messages (the `sort createdAt 1` of
`getMessages`). -/
def msgByCreatedAt (a b : Message) : Prop :=
  a.createdAt ≤ b.createdAt

instance (a b : Message) : Decidable (msgByCreatedAt a b) := by
  unfold msgByCreatedAt; infer_instance

instance : IsTotal Message msgByCreatedAt :=
  ⟨fun a b => Int.le_total a.createdAt b.createdAt⟩

instance : IsTrans Message msgByCreatedAt :=
  ⟨fun _ _ _ h1 h2 => le_trans h1 h2⟩

/-- Embeds `ChatService.getMessages(roomId)`: an empty list on a malformed id,
otherwise the room's messages sorted ascending by creation time (the
store's sort is modelled by a stable sort). -/
def getMessages (st : ChatSt) (roomId : String) : List Message :=
  if !objectIdValid roomId then []
  else List.insertionSort msgByCreatedAt
    (st.messages.filter (fun m => m.roomId == roomId))

/-- Environment of external collaborators consumed by the appointments
service, per the spec's external-interface contracts (their sources are not
in the repository): pet / provider / tutor / review lookup services, and
the JS runtime's date parser, number parser and regex engine used on query
strings. -/
structure Env where
  petsByTutor : String → List PetRec
  providerByUserId : String → Option ProviderRec
  tutorById : String → Option TutorRec
  reviewedAppointments : String → List String → List String
  parseDate : String → Option LocalDT
  parseNumber : String → Option Int
  regexTest : String → String → Bool

/-- A query field that may arrive as a scalar string or as a list
(the service type-sniffs with `Array.isArray`). -/
inductive StrOrList where
  | one (s : String)
  | many (l : List String)
deriving DecidableEq, Repr

/-- Shape of `QueryAppointmentDto` as consumed by `findAll` (the dto file is not in
the sources; field types follow the service's own uses: `parseInt` on
page/limit, `Number` on prices, `new Date` on the range bounds).  The
source's `from` / `to` fields are named `fromDate` / `toDate` here because
`from` is reserved in Lean. -/
structure QueryAppointmentDto where
  provider : Option String := none
  pet : Option StrOrList := none
  status : Option StrOrList := none
  q : Option String := none
  fromDate : Option String := none
  toDate : Option String := none
  minPrice : Option String := none
  maxPrice : Option String := none
  page : Option String := none
  limit : Option String := none
  sort : Option String := none
  asc : Option String := none
deriving DecidableEq, Repr

/-- JS truthiness of the `pet` query field: an absent field and the empty
string are falsy; an array (even empty) is truthy.  Yields the pet-id list
`Array.isArray(q.pet) ? q.pet : [q.pet]`. -/
def petTruthy : Option StrOrList → Option (List String)
  | none => none
  | some (.one s) => if s = "" then none else some [s]
  | some (.many l) => some l

/-- JS truthiness of the `status` query field, yielding the normalized
status list: an array is taken as is, a scalar string is split on commas. -/
def statusTruthy : Option StrOrList → Option (List String)
  | none => none
  | some (.one s) => if s = "" then none else some (s.splitOn ",")
  | some (.many l) => some l

/-- The normalized conjunctive filter built by `findAll`; each field is
`none` when the corresponding query input was absent (or falsy). -/
structure ApptFilter where
  provider : Option String := none
  petIn : Option (List String) := none
  statusIn : Option (List String) := none
  textQ : Option String := none
  dtGte : Option (Option LocalDT) := none
  dtLte : Option (Option LocalDT) := none
  priceGte : Option (Option Int) := none
  priceLte : Option (Option Int) := none
deriving DecidableEq, Repr

/-- Whether an appointment document matches the normalized filter (the
store's evaluation of the conjunctive predicate; `$regex` runs in the
environment's regex engine against reason, location and notes). -/
def matchesFilter (env : Env) (f : ApptFilter) (a : Appointment) : Bool :=
  (match f.provider with | some p => a.provider == p | none => true) &&
  (match f.petIn with | some ids => ids.contains a.pet | none => true) &&
  (match f.statusIn with | some sts => sts.contains a.status | none => true) &&
  (match f.textQ with
   | some pat => env.regexTest pat a.reason || env.regexTest pat a.location ||
       env.regexTest pat a.notes
   | none => true) &&
  (match f.dtGte with | some b => dtGeOptBound a.dateTime b | none => true) &&
  (match f.dtLte with | some b => dtLeOptBound a.dateTime b | none => true) &&
  (match f.priceGte with | some b => numGeBound a.price b | none => true) &&
  (match f.priceLte with | some b => numLeBound a.price b | none => true)

/-- Filter construction of `findAll` (lines 196-231): each truthy query
field contributes a conjunct; provider and pet ids go through
`new Types.ObjectId`, which throws on a malformed id. -/
def buildFilter (env : Env) (q : QueryAppointmentDto) :
    Except SvcError ApptFilter := do
  let providerF ← match presentStr q.provider with
    | some p => do
      let oid ← toObjectId p
      pure (some oid)
    | none => pure none
  let petF ← match petTruthy q.pet with
    | some ids => do
      let oids ← mapObjectIds ids
      pure (some oids)
    | none => pure none
  let statusF := statusTruthy q.status
  let textF := presentStr q.q
  let dtGteF := (presentStr q.fromDate).map env.parseDate
  let dtLteF := (presentStr q.toDate).map env.parseDate
  let priceGteF := (presentStr q.minPrice).map env.parseNumber
  let priceLteF := (presentStr q.maxPrice).map env.parseNumber
  pure ⟨providerF, petF, statusF, textF, dtGteF, dtLteF, priceGteF, priceLteF⟩

/-- Effective page of the pagination plan:
`Math.max(parseInt(q.page || '1', 10), 1)`; `none` is NaN. -/
def effPage (q : QueryAppointmentDto) : Option Int :=
  jsMaxI (parseIntJS ((presentStr q.page).getD "1")) 1

/-- Effective limit: `Math.min(Math.max(parseInt(q.limit || '20', 10), 1), 100)`. -/
def effLimit (q : QueryAppointmentDto) : Option Int :=
  jsMinI (jsMaxI (parseIntJS ((presentStr q.limit).getD "20")) 1) 100

/-- Effective skip: `(page - 1) * limit`. -/
def effSkip (q : QueryAppointmentDto) : Option Int :=
  jsMulI (jsSubI (effPage q) 1) (effLimit q)

/-- The sort specification built by `findAll` (lines 237-245). -/
inductive SortSpec where
  | fieldAsc (f : String)
  | dtAsc
  | dtDescCreatedDesc
deriving DecidableEq, Repr

/-- Sort selection: an explicit truthy `sort` field sorts ascending by that
field; otherwise `asc === 'true'` picks ascending date-time, else the
default descending date-time with descending creation-time tiebreak. -/
def buildSort (q : QueryAppointmentDto) : SortSpec :=
  match presentStr q.sort with
  | some f => .fieldAsc f
  | none => if q.asc = some "true" then .dtAsc else .dtDescCreatedDesc

/-- Ascending order on optional stored dates (store sort semantics:
missing dates first). -/
def dtOptLeB (a b : Option LocalDT) : Bool :=
  match a, b with
  | none, _ => true
  | some _, none => false
  | some x, some y => decide (dtLeP x y)

/-- The store's evaluation of a sort specification (a stable sort by the
requested keys; an unrecognized explicit sort field leaves store order). -/
def sortAppointments (s : SortSpec) (l : List Appointment) : List Appointment :=
  match s with
  | .dtAsc =>
    List.insertionSort (fun a b => dtOptLeB a.dateTime b.dateTime = true) l
  | .dtDescCreatedDesc =>
    List.insertionSort
      (fun a b =>
        (dtOptLeB b.dateTime a.dateTime &&
          (!dtOptLeB a.dateTime b.dateTime || decide (b.createdAt ≤ a.createdAt))) = true) l
  | .fieldAsc f =>
    match f with
    | "dateTime" => List.insertionSort (fun a b => dtOptLeB a.dateTime b.dateTime = true) l
    | "price" => List.insertionSort (fun a b => a.price ≤ b.price) l
    | "createdAt" => List.insertionSort (fun a b => a.createdAt ≤ b.createdAt) l
    | _ => l

/-- The store's `skip` on a paged cursor; a NaN skip (`none`) is handed to
the external store, whose behavior is outside the sources — no theorem
depends on this branch. -/
def applySkip : Option Int → List α → List α
  | some n, l => l.drop n.toNat
  | none, l => l

/-- The store's `limit`; the NaN branch is likewise external and unused by
the theorems. -/
def applyLimit : Option Int → List α → List α
  | some n, l => l.take n.toNat
  | none, l => l

/-- The document-store state owned by the appointments service, together
with the collections its side-effect path re-reads and the chat state it
writes through `ChatService`. -/
structure St where
  appointments : List Appointment
  pets : List PetRec
  providers : List ProviderRec
  chat : ChatSt
  nextApptId : Nat
deriving DecidableEq, Repr

/-- The page envelope `{items, total, page, limit, pages}`; `page` and
`limit` echo either a number (possibly NaN) or, on the tutor-scoped empty
path, the raw query string. -/
inductive JsVal where
  | num (n : Option Int)
  | str (s : String)
deriving DecidableEq, Repr

/-- Page envelope returned by the listing operations. -/
structure Envelope (α : Type) where
  items : List α
  total : Nat
  page : JsVal
  limit : JsVal
  pages : JsVal
deriving DecidableEq, Repr

/-- Materializes `x || d` on an optional string query field against a numeric default,
as materialized in the empty-result envelopes. -/
def jsValOr (o : Option String) (d : Int) : JsVal :=
  match presentStr o with
  | some s => .str s
  | none => .num (some d)

/-- Embeds `AppointmentsService.findAll` (lines 195-271): build the filter, the
pagination plan and the sort, run the paged fetch and the count over the
store, and return the page envelope with `pages = ceil(total / limit)`.
The `populate` joins only select display fields and are not modelled. -/
def findAll (env : Env) (st : St) (q : QueryAppointmentDto) :
    Except SvcError (Envelope Appointment) := do
  let filter ← buildFilter env q
  let page := effPage q
  let limit := effLimit q
  let skip := effSkip q
  let srt := buildSort q
  let matched := st.appointments.filter (matchesFilter env filter)
  let items := applyLimit limit (applySkip skip (sortAppointments srt matched))
  let total := matched.length
  pure ⟨items, total, .num page, .num limit, .num (jsCeilDiv total limit)⟩

/-- A tutor-scoped item: the appointment spread together with the attached
`isReviewed` flag. -/
structure Enriched where
  appt : Appointment
  isReviewed : Bool
deriving DecidableEq, Repr

/-- The pet-constrained query the tutor-scoped path passes to `findAll`. -/
def petQueryOf (q : QueryAppointmentDto) (petIds : List String) :
    QueryAppointmentDto :=
  { q with pet := some (.many petIds) }

/-- Embeds `AppointmentsService.findAllByTutorId` (lines 148-193): resolve the
tutor's pets; with none, return the fixed empty envelope (pages 0) without
touching the appointment store; otherwise run the base query constrained
to those pet ids, look up which returned appointment ids this tutor has
reviewed, and attach `isReviewed` per item. -/
def findAllByTutorId (env : Env) (st : St) (tutorId : String)
    (q : QueryAppointmentDto) : Except SvcError (Envelope Enriched) := do
  let pets := env.petsByTutor tutorId
  if pets.length = 0 then
    pure ⟨[], 0, jsValOr q.page 1, jsValOr q.limit 20, .num (some 0)⟩
  else
    let petIds := pets.map (fun p => p._id)
    let result ← findAll env st (petQueryOf q petIds)
    let appointmentIds := result.items.map (fun a => a._id)
    let reviewedIds := env.reviewedAppointments tutorId appointmentIds
    let itemsWithReviewStatus :=
      result.items.map (fun a => Enriched.mk a (reviewedIds.contains a._id))
    pure ⟨itemsWithReviewStatus, result.total, result.page, result.limit, result.pages⟩

/-- Embeds `AppointmentsService.findAllByProviderUser` (lines 136-146): resolve
the provider profile of the logged-in user; with none, return the fixed
empty envelope (page 1, pages 1) without querying appointments; otherwise
delegate to `findAll` constrained to that provider. -/
def findAllByProviderUser (env : Env) (st : St) (userId : String)
    (q : QueryAppointmentDto) : Except SvcError (Envelope Appointment) :=
  match env.providerByUserId userId with
  | none => pure ⟨[], 0, .num (some 1), jsValOr q.limit 20, .num (some 1)⟩
  | some provider => findAll env st { q with provider := some provider._id }

/-- Shape of `CreateAppointmentDto` (dto file not in the sources; fields follow the
appointment schema writes visible in `create` and `update`). -/
structure CreateAppointmentDto where
  pet : String
  provider : String
  service : Option String := none
  dateTime : String
  duration : Int := 0
  reason : String := ""
  location : String := ""
  price : Int := 0
  status : String := "pending"
  notes : String := ""
  email : String := ""
  phone : String := ""
deriving DecidableEq, Repr

/-- Transient-failure switches for the external calls of the chat-room
side-effect path of `create`; a set switch makes the corresponding awaited
call reject, exercising the surrounding `try/catch`. -/
structure Faults where
  petLookup : Bool := false
  providerLookup : Bool := false
  tutorLookup : Bool := false
  chat : Bool := false
deriving DecidableEq, Repr

/-- Embeds `assertPet`: `petModel.exists` on the id (mongoose casts the id, so a
malformed id rejects) followed by the NotFound throw. -/
def assertPet (st : St) (id : String) : Except SvcError Unit := do
  let oid ← toObjectId id
  if st.pets.any (fun p => p._id == oid) then pure ()
  else throw (.notFound "Pet não encontrado.")

/-- Embeds `assertProvider`, same shape over the provider collection. -/
def assertProvider (st : St) (id : String) : Except SvcError Unit := do
  let oid ← toObjectId id
  if st.providers.any (fun p => p._id == oid) then pure ()
  else throw (.notFound "Prestador não encontrado.")

/-- The appointment document persisted by `create`: dto fields spread, the
date-time string coerced through the date parser, the schema defaults for
the rated flag, and store-assigned identity and creation time. -/
def mkAppointment (env : Env) (st : St) (dto : CreateAppointmentDto) :
    Appointment :=
  { _id := mkHexId st.nextApptId
    pet := dto.pet
    provider := dto.provider
    service := dto.service
    dateTime := env.parseDate dto.dateTime
    duration := dto.duration
    reason := dto.reason
    location := dto.location
    price := dto.price
    status := dto.status
    notes := dto.notes
    email := dto.email
    phone := dto.phone
    isRated := false
    createdAt := st.chat.now }

/-- Tail of the side-effect path: the guard
`if (provider?.userId && tutorUserId)` (JS truthiness on both) and the
find-or-create call; when either user id is missing the chat state is
untouched. -/
def provisionRoom (chat : ChatSt) (chatFault : Bool) (petName : String)
    (providerUserId tutorUserId : Option String) : Except SvcError ChatSt :=
  match presentStr providerUserId, presentStr tutorUserId with
  | some pu, some tu =>
    if chatFault then .error .storageFailure
    else Except.map (fun r => r.2)
      (getOrCreateRoomForParticipants chat [pu, tu]
        (some ("Atendimento - " ++ petName)))
  | _, _ => .ok chat

/-- The chat-room auto-provisioning side effect of `create` (lines 84-117,
inside the try block): re-read the pet and provider, resolve the pet's
truthy tutor reference to the tutor's user account, and when both user ids
are truthy find-or-create a room for the pair named after the pet
(`pet?.nome ?? 'Pet'`).  Every awaited external call can reject (the fault
switches); the result is the new chat state. -/
def sideEffectRooms (env : Env) (st : St) (f : Faults)
    (dto : CreateAppointmentDto) : Except SvcError ChatSt :=
  if f.petLookup then .error .storageFailure
  else if f.providerLookup then .error .storageFailure
  else
    match (st.pets.find? (fun p => p._id == dto.pet)).bind
        (fun p => presentStr p.tutorId) with
    | some tid =>
      if f.tutorLookup then .error .storageFailure
      else provisionRoom st.chat f.chat
        (match st.pets.find? (fun p => p._id == dto.pet) with
          | some p => p.nome | none => "Pet")
        ((st.providers.find? (fun p => p._id == dto.provider)).bind
          (fun p => p.userId))
        ((env.tutorById tid).bind (fun t => t.userId))
    | none =>
      provisionRoom st.chat f.chat
        (match st.pets.find? (fun p => p._id == dto.pet) with
          | some p => p.nome | none => "Pet")
        ((st.providers.find? (fun p => p._id == dto.provider)).bind
          (fun p => p.userId))
        none

/-- Embeds `AppointmentsService.create` (lines 73-120): guard pet and provider
existence, persist the appointment, then attempt the chat-room side effect
with any rejection caught, logged and swallowed; the created record is
returned regardless. -/
def create (env : Env) (st : St) (f : Faults) (dto : CreateAppointmentDto) :
    Except SvcError (Appointment × St) := do
  assertPet st dto.pet
  assertProvider st dto.provider
  let petOid ← toObjectId dto.pet
  let provOid ← toObjectId dto.provider
  let created := { mkAppointment env st dto with pet := petOid, provider := provOid }
  let st1 : St :=
    { st with
      appointments := st.appointments ++ [created]
      nextApptId := st.nextApptId + 1 }
  let chat2 :=
    match sideEffectRooms env st1 f dto with
    | .ok c => c
    | .error _ => st1.chat
  pure (created, { st1 with chat := chat2 })

/-- The linked tutor-user id of an appointment's pet as the side-effect
path resolves it: the pet's truthy tutor reference, through the tutor
lookup, to that tutor's user id. -/
def petLinkedTutorUserId (env : Env) (st : St) (petId : String) :
    Option String :=
  match (st.pets.find? (fun p => p._id == petId)).bind
      (fun p => presentStr p.tutorId) with
  | some tid => (env.tutorById tid).bind (fun t => t.userId)
  | none => none

/-- The linked user id of a provider as the side-effect path reads it. -/
def providerLinkedUserId (st : St) (providerId : String) : Option String :=
  (st.providers.find? (fun p => p._id == providerId)).bind (fun p => p.userId)

/-- The total-count filter of `countAppointmentsForToday` (lines 299-303):
this provider, scheduled in `[startOfToday, endOfToday)` via `$gte` / `$lt`,
status `$nin ['cancelled', 'completed']`. -/
def totalFilterPred (pid : String) (startT endT : LocalDT) (a : Appointment) :
    Bool :=
  a.provider == pid && dtGeBound a.dateTime startT && dtLtBound a.dateTime endT &&
    !(["cancelled", "completed"].contains a.status)

/-- The confirmed-count filter (lines 305-309): same window, status exactly
`confirmed`. -/
def confirmedFilterPred (pid : String) (startT endT : LocalDT)
    (a : Appointment) : Bool :=
  a.provider == pid && dtGeBound a.dateTime startT && dtLtBound a.dateTime endT &&
    a.status == "confirmed"

/-- Embeds `AppointmentsService.countAppointmentsForToday` (lines 273-317): from
the clock reading `now`, build the local-day window `[⟨day, 0⟩, ⟨day+1, 0⟩)`
(`new Date(y, m, d)` and `new Date(y, m, d + 1)`), cast the provider id,
and count the two filters over the store. -/
def countAppointmentsForToday (st : St) (providerId : String) (now : LocalDT) :
    Except SvcError (Nat × Nat) := do
  let startOfToday : LocalDT := ⟨now.day, 0⟩
  let endOfToday : LocalDT := ⟨now.day + 1, 0⟩
  let pid ← toObjectId providerId
  pure ((st.appointments.filter (totalFilterPred pid startOfToday endOfToday)).length,
    (st.appointments.filter (confirmedFilterPred pid startOfToday endOfToday)).length)

/-- The narrow patch accepted by `updateAppointmentStatus`: exactly one of
the status or the rated flag. -/
inductive StatusPatch where
  | status (s : String)
  | isRated (b : Bool)
deriving DecidableEq, Repr

/-- Applies the `$set` of the narrow patch to a document. -/
def applyStatusPatch (p : StatusPatch) (a : Appointment) : Appointment :=
  match p with
  | .status s => { a with status := s }
  | .isRated b => { a with isRated := b }

/-- Embeds `AppointmentsService.updateAppointmentStatus` (lines 330-343):
`findByIdAndUpdate` (casting the id, updating the single matching
document) and a NotFound throw when nothing matched. -/
def updateAppointmentStatus (st : St) (id : String) (patch : StatusPatch) :
    Except SvcError St := do
  let oid ← toObjectId id
  match st.appointments.find? (fun a => a._id == oid) with
  | none => throw (.notFound "Agendamento não encontrado para atualização de status.")
  | some _ =>
    pure { st with
      appointments :=
        updateFirst (fun a => a._id == oid) (applyStatusPatch patch) st.appointments }

/-- Concrete environment for evaluation: every external lookup resolves
nothing and the JS parsers reject everything. -/
def env0 : Env :=
  { petsByTutor := fun _ => []
    providerByUserId := fun _ => none
    tutorById := fun _ => none
    reviewedAppointments := fun _ _ => []
    parseDate := fun _ => none
    parseNumber := fun _ => none
    regexTest := fun _ _ => false }

/-- Empty chat state. -/
def chatSt0 : ChatSt := ⟨[], [], 0, 0, 0⟩

/-- Empty service state. -/
def st0 : St := ⟨[], [], [], chatSt0, 0⟩

/-- Sample well-formed object ids. -/
def hexA : String := "aaaaaaaaaaaaaaaaaaaaaaaa"

def hexB : String := "bbbbbbbbbbbbbbbbbbbbbbbb"

def hexC : String := "cccccccccccccccccccccccc"

def hexD : String := "dddddddddddddddddddddddd"

def hexE : String := "eeeeeeeeeeeeeeeeeeeeeeee"

/-- A pet with no linked tutor. -/
def pet1 : PetRec := ⟨hexA, "Rex", none⟩

/-- A provider with no linked user. -/
def prov1 : ProviderRec := ⟨hexB, none⟩

/-- State holding that pet and provider. -/
def st1 : St := ⟨[], [pet1], [prov1], chatSt0, 0⟩

/-- A creation payload referencing them. -/
def dto1 : CreateAppointmentDto :=
  { pet := hexA, provider := hexB, dateTime := "2025-01-01T10:00:00" }

/-- Environment whose pet lookup returns `pet1` for every tutor. -/
def env4 : Env := { env0 with petsByTutor := fun _ => [pet1] }

/-- The default (all-absent) query. -/
def q0 : QueryAppointmentDto := {}

/-- A query with a malformed provider id. -/
def qBadProvider : QueryAppointmentDto := { provider := some "xyz" }

/-- A query exercising the coercion paths with well-formed ids. -/
def qMixed : QueryAppointmentDto :=
  { provider := some hexB
    pet := some (.many [hexA])
    status := some (.one "pending,confirmed")
    q := some "vac"
    fromDate := some "not-a-date"
    minPrice := some "abc"
    page := some "2"
    limit := some "5" }

/-- A query with explicit page and limit strings. -/
def qPag : QueryAppointmentDto := { page := some "3", limit := some "250" }

/-- An existing appointment used by the update and counter witnesses. -/
def appt1 : Appointment :=
  { _id := hexC
    pet := hexA
    provider := hexB
    service := none
    dateTime := some ⟨0, 43200000⟩
    duration := 30
    reason := "checkup"
    location := "clinic"
    price := 100
    status := "pending"
    notes := "bring records"
    email := "a@b.c"
    phone := "123"
    isRated := false
    createdAt := 5 }

/-- State holding that appointment. -/
def stU : St := ⟨[appt1], [pet1], [prov1], chatSt0, 1⟩

/-- Boundary appointments: 23:59:59 of the previous local day, midnight of
the next local day, and noon today (confirmed). -/
def apptYesterdayLate : Appointment := { appt1 with _id := hexD, dateTime := some ⟨-1, 86399000⟩ }

def apptTomorrowMidnight : Appointment := { appt1 with _id := hexE, dateTime := some ⟨1, 0⟩ }

def apptTodayNoon : Appointment :=
  { appt1 with _id := hexA, dateTime := some ⟨0, 43200000⟩, status := "confirmed" }

/-- State for the today-counter witness. -/
def stC : St := ⟨[apptYesterdayLate, apptTomorrowMidnight, apptTodayNoon], [], [], chatSt0, 0⟩

theorem toObjectId_valid {s : String} (h : objectIdValid s = true) :
    toObjectId s = .ok s := by
  simp [toObjectId, h]

theorem epure {α : Type} (a : α) : (pure a : Except SvcError α) = .ok a := rfl

theorem ethrow {α : Type} (e : SvcError) :
    (throw e : Except SvcError α) = .error e := rfl

theorem ebind_ok {α β : Type} (a : α) (f : α → Except SvcError β) :
    (Except.ok a : Except SvcError α) >>= f = f a := rfl

theorem ebind_err {α β : Type} (e : SvcError) (f : α → Except SvcError β) :
    (Except.error e : Except SvcError α) >>= f = .error e := rfl

theorem emap_ok {α β : Type} (g : α → β) (a : α) :
    g <$> (Except.ok a : Except SvcError α) = .ok (g a) := rfl

theorem emap_err {α β : Type} (g : α → β) (e : SvcError) :
    g <$> (Except.error e : Except SvcError α) = .error e := rfl

theorem mapObjectIds_ok :
    ∀ {ids : List String}, (∀ s ∈ ids, objectIdValid s = true) →
      mapObjectIds ids = .ok ids
  | [], _ => rfl
  | s :: rest, h => by
    have hs : objectIdValid s = true := h s (List.mem_cons_self s rest)
    have hr : mapObjectIds rest = .ok rest :=
      mapObjectIds_ok (fun x hx => h x (List.mem_cons_of_mem s hx))
    simp [mapObjectIds, toObjectId_valid hs, hr]
    rfl

theorem find?_append_single (l : List α) (p : α → Bool) (x : α)
    (h : l.find? p = none) :
    (l ++ [x]).find? p = if p x then some x else none := by
  induction l with
  | nil => cases hx : p x <;> simp [List.find?, hx]
  | cons y ys ih =>
    rw [List.find?_cons] at h
    cases hy : p y with
    | true => rw [hy] at h; exact absurd h (by simp)
    | false =>
      rw [hy] at h
      simp only [List.cons_append, List.find?_cons, hy]
      exact ih h

theorem find?_updateFirst_decomp (p : α → Bool) (f : α → α) :
    ∀ {l : List α} {a : α}, l.find? p = some a →
      ∃ pre post, l = pre ++ a :: post ∧ (∀ b ∈ pre, p b = false) ∧
        updateFirst p f l = pre ++ f a :: post
  | [], a, h => by simp [List.find?] at h
  | x :: xs, a, h => by
    cases hx : p x with
    | true =>
      rw [List.find?_cons, hx] at h
      obtain rfl : x = a := by simpa using h
      exact ⟨[], xs, rfl, by simp, by simp [updateFirst, hx]⟩
    | false =>
      rw [List.find?_cons, hx] at h
      obtain ⟨pre, post, hsplit, hpre, hupd⟩ := find?_updateFirst_decomp p f h
      exact ⟨x :: pre, post, by simp [hsplit], by
        intro b hb
        rcases List.mem_cons.mp hb with hb1 | hb2
        · exact hb1 ▸ hx
        · exact hpre b hb2, by simp [updateFirst, hx, hupd]⟩

/-- C3: for page and limit strings that parse to integers, the effective
pagination plan is `page = max(parsed, 1)`, `limit = clamp(parsed, 1, 100)`
and `skip = (page - 1) * limit`; an absent page defaults to 1 and an
absent limit to 20. -/
theorem pagination_plan_policy (q : QueryAppointmentDto) (p l : Int)
    (hp : parseIntJS ((presentStr q.page).getD "1") = some p)
    (hl : parseIntJS ((presentStr q.limit).getD "20") = some l) :
    effPage q = some (max p 1) ∧
    effLimit q = some (min (max l 1) 100) ∧
    effSkip q = some ((max p 1 - 1) * min (max l 1) 100) ∧
    (presentStr q.page = none → effPage q = some 1) ∧
    (presentStr q.limit = none → effLimit q = some 20) := by
  refine ⟨?_, ?_, ?_, ?_, ?_⟩
  · simp [effPage, jsMaxI, hp]
  · simp [effLimit, jsMinI, jsMaxI, hl]
  · simp [effSkip, effPage, effLimit, jsMulI, jsSubI, jsMinI, jsMaxI, hp, hl]
  · intro h
    simp only [effPage, h]
    decide
  · intro h
    simp only [effLimit, h]
    decide

theorem pagination_plan_policy_witness :
    effPage qPag = some (max 3 1) ∧
    effLimit qPag = some (min (max 250 1) 100) ∧
    effSkip qPag = some ((max 3 1 - 1) * min (max 250 1) 100) ∧
    (presentStr qPag.page = none → effPage qPag = some 1) ∧
    (presentStr qPag.limit = none → effLimit qPag = some 20) :=
  pagination_plan_policy qPag 3 250 (by decide) (by decide)

/-- C5: a tutor whose pet lookup is empty gets the fixed empty envelope
(items `[]`, total 0, pages 0, the requested-or-defaulted page and limit)
for every store state — no appointment query is issued and no error is
possible. -/
theorem tutor_empty_pets_envelope (env : Env) (st : St) (tutorId : String)
    (q : QueryAppointmentDto) (h : env.petsByTutor tutorId = []) :
    findAllByTutorId env st tutorId q =
      .ok ⟨[], 0, jsValOr q.page 1, jsValOr q.limit 20, .num (some 0)⟩ := by
  simp [findAllByTutorId, h]
  rfl

theorem tutor_empty_pets_envelope_witness :
    findAllByTutorId env0 st0 "tutor-1" q0 =
      .ok ⟨[], 0, jsValOr q0.page 1, jsValOr q0.limit 20, .num (some 0)⟩ :=
  tutor_empty_pets_envelope env0 st0 "tutor-1" q0 rfl

/-- C10: a user with no provider profile gets the fixed empty envelope
`{items: [], total: 0, page: 1, limit: q.limit || 20, pages: 1}` for every
store state — no appointment query is issued, and `pages` is 1, unlike the
tutor-scoped empty case. -/
theorem provider_user_empty_envelope (env : Env) (st : St) (userId : String)
    (q : QueryAppointmentDto) (h : env.providerByUserId userId = none) :
    findAllByProviderUser env st userId q =
      .ok ⟨[], 0, .num (some 1), jsValOr q.limit 20, .num (some 1)⟩ := by
  simp [findAllByProviderUser, h]
  rfl

theorem provider_user_empty_envelope_witness :
    findAllByProviderUser env0 st0 "user-1" q0 =
      .ok ⟨[], 0, .num (some 1), jsValOr q0.limit 20, .num (some 1)⟩ :=
  provider_user_empty_envelope env0 st0 "user-1" q0 rfl

/-- C2 (counterexample): `findAll` is not total on loosely-typed queries —
a malformed provider id is not coerced or ignored but makes the query
builder throw a cast error, rejecting the request. -/
theorem find_all_rejects_malformed_provider :
    findAll env0 st0 qBadProvider = .error .castError := by
  rfl

/-- C2 (amended): for queries whose supplied provider and pet ids are
well-formed and whose page/limit strings parse to integers, `findAll`
never rejects — all remaining malformed field values (status, search term,
date range, price range) are coerced into the filter or ignored — and the
returned page envelope carries well-defined numeric pagination fields. -/
theorem find_all_lenient_on_wellformed_ids (env : Env) (st : St)
    (q : QueryAppointmentDto)
    (hp : ∀ s, presentStr q.provider = some s → objectIdValid s = true)
    (hpet : ∀ ids, petTruthy q.pet = some ids → ∀ s ∈ ids, objectIdValid s = true)
    (hpg : (parseIntJS ((presentStr q.page).getD "1")).isSome = true)
    (hlim : (parseIntJS ((presentStr q.limit).getD "20")).isSome = true) :
    ∃ e, findAll env st q = .ok e ∧
      (∃ p, e.page = .num (some p)) ∧
      (∃ l, e.limit = .num (some l)) ∧
      (∃ g, e.pages = .num (some g)) := by
  obtain ⟨pv, hpv⟩ := Option.isSome_iff_exists.mp hpg
  obtain ⟨lv, hlv⟩ := Option.isSome_iff_exists.mp hlim
  have hpage : effPage q = some (max pv 1) := by simp [effPage, jsMaxI, hpv]
  have hlimit : effLimit q = some (min (max lv 1) 100) := by
    simp [effLimit, jsMaxI, jsMinI, hlv]
  have hfl : buildFilter env q = Except.ok
      ⟨presentStr q.provider, petTruthy q.pet, statusTruthy q.status,
        presentStr q.q, (presentStr q.fromDate).map env.parseDate,
        (presentStr q.toDate).map env.parseDate,
        (presentStr q.minPrice).map env.parseNumber,
        (presentStr q.maxPrice).map env.parseNumber⟩ := by
    cases hprov : presentStr q.provider with
    | none =>
      cases hpt : petTruthy q.pet with
      | none => simp [buildFilter, hprov, hpt, ebind_ok, epure]
      | some ids =>
        have hm := mapObjectIds_ok (hpet ids hpt)
        simp [buildFilter, hprov, hpt, hm, ebind_ok, epure]
    | some s =>
      have hs := toObjectId_valid (hp s hprov)
      cases hpt : petTruthy q.pet with
      | none => simp [buildFilter, hprov, hpt, hs, ebind_ok, epure]
      | some ids =>
        have hm := mapObjectIds_ok (hpet ids hpt)
        simp [buildFilter, hprov, hpt, hs, hm, ebind_ok, epure]
  have hmain : ∃ t items, findAll env st q = Except.ok
      ⟨items, t, .num (effPage q), .num (effLimit q),
        .num (jsCeilDiv t (effLimit q))⟩ := by
    unfold findAll
    rw [hfl, ebind_ok]
    exact ⟨_, _, epure _⟩
  obtain ⟨t, items, hfa⟩ := hmain
  refine ⟨_, hfa, ⟨max pv 1, ?_⟩, ⟨min (max lv 1) 100, ?_⟩,
    ⟨(if (min (max lv 1) 100) ≤ 0 then (0 : Int)
      else ((t + (min (max lv 1) 100).toNat - 1) / (min (max lv 1) 100).toNat : Nat)), ?_⟩⟩
  · show JsVal.num (effPage q) = _
    rw [hpage]
  · show JsVal.num (effLimit q) = _
    rw [hlimit]
  · show JsVal.num (jsCeilDiv t (effLimit q)) = _
    rw [hlimit]
    rfl

theorem find_all_lenient_on_wellformed_ids_witness :
    ∃ e, findAll env0 st0 qMixed = .ok e ∧
      (∃ p, e.page = .num (some p)) ∧
      (∃ l, e.limit = .num (some l)) ∧
      (∃ g, e.pages = .num (some g)) :=
  find_all_lenient_on_wellformed_ids env0 st0 qMixed
    (by intro s hs; cases hs; decide)
    (by intro ids hids s hs; cases hids; simp at hs; cases hs; decide)
    (by decide) (by decide)

/-- C6: two sequential calls of `getOrCreateRoomForParticipants` on the
same participant pair, with no intermediate deactivation (no state change
between the calls), yield rooms with the same identity: the second call
finds the room the first one resolved or created. -/
theorem get_or_create_room_idempotent (st : ChatSt) (a b : String)
    (n1 n2 : Option String)
    (ha : objectIdValid a = true) (hb : objectIdValid b = true) :
    ∃ r1 st1 r2 st2,
      getOrCreateRoomForParticipants st [a, b] n1 = .ok (r1, st1) ∧
      getOrCreateRoomForParticipants st1 [a, b] n2 = .ok (r2, st2) ∧
      r2._id = r1._id := by
  have hmap : mapObjectIds [a, b] = .ok [a, b] := by
    refine mapObjectIds_ok ?_
    intro s hs
    rcases List.mem_cons.mp hs with rfl | hs2
    · exact ha
    · rcases List.mem_cons.mp hs2 with rfl | hs3
      · exact hb
      · simp at hs3
  cases hfind : st.rooms.find? (roomMatches [a, b]) with
  | some r =>
    exact ⟨r, st, r, st,
      by simp [getOrCreateRoomForParticipants, hmap, hfind, ebind_ok, epure],
      by simp [getOrCreateRoomForParticipants, hmap, hfind, ebind_ok, epure], rfl⟩
  | none =>
    have hmatch : roomMatches [a, b]
        (⟨mkHexId st.nextRoomId, n1.getD "Atendimento", [a, b], true, st.now⟩ :
          ChatRoom) = true := by
      simp [roomMatches, List.contains]
    refine ⟨⟨mkHexId st.nextRoomId, n1.getD "Atendimento", [a, b], true, st.now⟩,
      { st with
        rooms := st.rooms ++
          [⟨mkHexId st.nextRoomId, n1.getD "Atendimento", [a, b], true, st.now⟩]
        nextRoomId := st.nextRoomId + 1 },
      ⟨mkHexId st.nextRoomId, n1.getD "Atendimento", [a, b], true, st.now⟩,
      { st with
        rooms := st.rooms ++
          [⟨mkHexId st.nextRoomId, n1.getD "Atendimento", [a, b], true, st.now⟩]
        nextRoomId := st.nextRoomId + 1 },
      ?_, ?_, rfl⟩
    · simp [getOrCreateRoomForParticipants, hmap, hfind, ebind_ok, epure]
    · simp [getOrCreateRoomForParticipants, hmap, hfind, hmatch, ebind_ok, epure]

theorem get_or_create_room_idempotent_witness :
    objectIdValid hexA = true ∧
    (∃ r1 st1 r2 st2,
      getOrCreateRoomForParticipants chatSt0 [hexA, hexB] none = .ok (r1, st1) ∧
      getOrCreateRoomForParticipants st1 [hexA, hexB] (some "Consulta") = .ok (r2, st2) ∧
      r2._id = r1._id) :=
  ⟨by decide,
    get_or_create_room_idempotent chatSt0 hexA hexB none (some "Consulta")
      (by decide) (by decide)⟩

/-- C7: `sendMessage` fails with NotFound both on a well-formed room id
with no matching room and on a malformed room id, while `getMessages` on a
malformed id returns the empty sequence; on a well-formed id it returns
exactly the room's messages, sorted ascending by creation time. -/
theorem chat_message_paths (st : ChatSt) (roomId senderId content : String) :
    (objectIdValid roomId = true →
      st.rooms.find? (fun r => r._id == roomId) = none →
      sendMessage st senderId ⟨roomId, content⟩ =
        .error (.notFound "Sala não encontrada")) ∧
    (objectIdValid roomId = false →
      sendMessage st senderId ⟨roomId, content⟩ =
        .error (.notFound "Sala não encontrada") ∧
      getMessages st roomId = []) ∧
    (objectIdValid roomId = true →
      (getMessages st roomId).Perm
        (st.messages.filter (fun m => m.roomId == roomId)) ∧
      (getMessages st roomId).Sorted msgByCreatedAt) := by
  refine ⟨?_, ?_, ?_⟩
  · intro hv hf
    simp [sendMessage, hv, hf, ethrow, ebind_ok, ebind_err, epure]
  · intro hv
    exact ⟨by simp [sendMessage, hv, ethrow, ebind_ok, ebind_err, epure],
      by simp [getMessages, hv]⟩
  · intro hv
    constructor
    · simp only [getMessages, hv, Bool.not_true, Bool.false_eq_true, if_false]
      exact List.perm_insertionSort msgByCreatedAt _
    · simp only [getMessages, hv, Bool.not_true, Bool.false_eq_true, if_false]
      exact List.sorted_insertionSort msgByCreatedAt _

theorem chat_message_paths_witness :
    (sendMessage chatSt0 hexB ⟨hexC, "oi"⟩ =
      .error (.notFound "Sala não encontrada")) ∧
    (sendMessage chatSt0 hexB ⟨"xyz", "oi"⟩ =
      .error (.notFound "Sala não encontrada") ∧
     getMessages chatSt0 "xyz" = []) ∧
    ((getMessages chatSt0 hexC).Perm
       (chatSt0.messages.filter (fun m => m.roomId == hexC)) ∧
     (getMessages chatSt0 hexC).Sorted msgByCreatedAt) :=
  ⟨(chat_message_paths chatSt0 hexC hexB "oi").1 (by decide) rfl,
   (chat_message_paths chatSt0 "xyz" hexB "oi").2.1 (by decide),
   (chat_message_paths chatSt0 hexC hexB "oi").2.2 (by decide)⟩

theorem contains_pair_eq_false (s x y : String) :
    ([x, y].contains s = false) ↔ (s ≠ x ∧ s ≠ y) := by
  have hc : [x, y].contains s = (s == x || s == y) := by
    cases hsx : s == x <;> cases hsy : s == y <;>
      simp [List.contains, List.elem, hsx, hsy]
  rw [hc]
  simp [not_or]

/-- C8: the today counter counts exactly this provider's appointments whose
scheduled instant lies in the half-open local-day window
`[startOfToday, endOfToday)`; `total` excludes the terminal statuses
`cancelled` and `completed`, `confirmed` counts exactly status
`confirmed`, and the boundary instants 23:59:59 of the previous day and
00:00:00 of the next day are excluded from both counts. -/
theorem count_today_window (st : St) (providerId : String) (now : LocalDT)
    (hv : objectIdValid providerId = true) :
    countAppointmentsForToday st providerId now =
      .ok ((st.appointments.filter
          (totalFilterPred providerId ⟨now.day, 0⟩ ⟨now.day + 1, 0⟩)).length,
        (st.appointments.filter
          (confirmedFilterPred providerId ⟨now.day, 0⟩ ⟨now.day + 1, 0⟩)).length) ∧
    (∀ a : Appointment,
      (totalFilterPred providerId ⟨now.day, 0⟩ ⟨now.day + 1, 0⟩ a = true ↔
        (a.provider = providerId ∧
          (∃ d, a.dateTime = some d ∧ dtLeP ⟨now.day, 0⟩ d ∧ dtLtP d ⟨now.day + 1, 0⟩) ∧
          a.status ≠ "cancelled" ∧ a.status ≠ "completed")) ∧
      (confirmedFilterPred providerId ⟨now.day, 0⟩ ⟨now.day + 1, 0⟩ a = true ↔
        (a.provider = providerId ∧
          (∃ d, a.dateTime = some d ∧ dtLeP ⟨now.day, 0⟩ d ∧ dtLtP d ⟨now.day + 1, 0⟩) ∧
          a.status = "confirmed"))) ∧
    (∀ a : Appointment,
      (a.dateTime = some ⟨now.day - 1, 86399000⟩ ∨ a.dateTime = some ⟨now.day + 1, 0⟩) →
      totalFilterPred providerId ⟨now.day, 0⟩ ⟨now.day + 1, 0⟩ a = false ∧
      confirmedFilterPred providerId ⟨now.day, 0⟩ ⟨now.day + 1, 0⟩ a = false) := by
  refine ⟨?_, ?_, ?_⟩
  · simp [countAppointmentsForToday, toObjectId_valid hv, ebind_ok, epure]
  · intro a
    constructor
    · cases hdt : a.dateTime with
      | none =>
        simp [totalFilterPred, dtGeBound, hdt]
      | some d =>
        simp only [totalFilterPred, dtGeBound, dtLtBound, hdt, Bool.and_eq_true,
          beq_iff_eq, decide_eq_true_eq, Bool.not_eq_true']
        constructor
        · rintro ⟨⟨⟨h1, h2⟩, h3⟩, h4⟩
          have h4x := (contains_pair_eq_false a.status "cancelled" "completed").mp h4
          exact ⟨h1, ⟨d, rfl, h2, h3⟩, h4x.1, h4x.2⟩
        · rintro ⟨h1, ⟨d2, hd2, h2, h3⟩, h4, h5⟩
          obtain rfl : d = d2 := by simpa [hdt] using hd2
          exact ⟨⟨⟨h1, h2⟩, h3⟩,
            (contains_pair_eq_false a.status "cancelled" "completed").mpr ⟨h4, h5⟩⟩
    · cases hdt : a.dateTime with
      | none =>
        simp [confirmedFilterPred, dtGeBound, hdt]
      | some d =>
        simp only [confirmedFilterPred, dtGeBound, dtLtBound, hdt, Bool.and_eq_true,
          beq_iff_eq, decide_eq_true_eq]
        constructor
        · rintro ⟨⟨⟨h1, h2⟩, h3⟩, h4⟩
          exact ⟨h1, ⟨d, rfl, h2, h3⟩, h4⟩
        · rintro ⟨h1, ⟨d2, hd2, h2, h3⟩, h4⟩
          obtain rfl : d = d2 := by simpa [hdt] using hd2
          exact ⟨⟨⟨h1, h2⟩, h3⟩, h4⟩
  · intro a hdt
    rcases hdt with h | h
    · have hle : dtGeBound a.dateTime ⟨now.day, 0⟩ = false := by
        rw [h]
        simp only [dtGeBound, decide_eq_false_iff_not, dtLeP, dtLtP, LocalDT.mk.injEq,
          not_or, not_and]
        omega
      constructor <;> simp [totalFilterPred, confirmedFilterPred, hle]
    · have hlt : dtLtBound a.dateTime ⟨now.day + 1, 0⟩ = false := by
        rw [h]
        simp only [dtLtBound, decide_eq_false_iff_not, dtLtP, LocalDT.mk.injEq, not_or,
          not_and]
        omega
      constructor <;> simp [totalFilterPred, confirmedFilterPred, hlt]

theorem count_today_window_witness :
    countAppointmentsForToday stC hexB ⟨0, 36000000⟩ =
      .ok ((stC.appointments.filter (totalFilterPred hexB ⟨0, 0⟩ ⟨0 + 1, 0⟩)).length,
        (stC.appointments.filter (confirmedFilterPred hexB ⟨0, 0⟩ ⟨0 + 1, 0⟩)).length) ∧
    (∀ a : Appointment,
      (totalFilterPred hexB ⟨0, 0⟩ ⟨0 + 1, 0⟩ a = true ↔
        (a.provider = hexB ∧
          (∃ d, a.dateTime = some d ∧ dtLeP ⟨0, 0⟩ d ∧ dtLtP d ⟨0 + 1, 0⟩) ∧
          a.status ≠ "cancelled" ∧ a.status ≠ "completed")) ∧
      (confirmedFilterPred hexB ⟨0, 0⟩ ⟨0 + 1, 0⟩ a = true ↔
        (a.provider = hexB ∧
          (∃ d, a.dateTime = some d ∧ dtLeP ⟨0, 0⟩ d ∧ dtLtP d ⟨0 + 1, 0⟩) ∧
          a.status = "confirmed"))) ∧
    (∀ a : Appointment,
      (a.dateTime = some ⟨0 - 1, 86399000⟩ ∨ a.dateTime = some ⟨0 + 1, 0⟩) →
      totalFilterPred hexB ⟨0, 0⟩ ⟨0 + 1, 0⟩ a = false ∧
      confirmedFilterPred hexB ⟨0, 0⟩ ⟨0 + 1, 0⟩ a = false) :=
  count_today_window stC hexB ⟨0, 36000000⟩ (by decide)

/-- C9: a narrow status-only (or rated-flag-only) update changes exactly
that field of the single matching appointment — every other field and
every other record is untouched — and fails with NotFound when no
appointment matches the id. -/
theorem update_status_narrow (st : St) (id : String) (patch : StatusPatch)
    (hv : objectIdValid id = true) :
    (st.appointments.find? (fun a => a._id == id) = none →
      updateAppointmentStatus st id patch =
        .error (.notFound "Agendamento não encontrado para atualização de status.")) ∧
    (∀ a, st.appointments.find? (fun a2 => a2._id == id) = some a →
      ∃ pre post st2,
        updateAppointmentStatus st id patch = .ok st2 ∧
        st.appointments = pre ++ a :: post ∧
        st2.appointments = pre ++ applyStatusPatch patch a :: post ∧
        st2.pets = st.pets ∧ st2.providers = st.providers ∧ st2.chat = st.chat ∧
        (applyStatusPatch patch a)._id = a._id ∧
        (applyStatusPatch patch a).pet = a.pet ∧
        (applyStatusPatch patch a).provider = a.provider ∧
        (applyStatusPatch patch a).service = a.service ∧
        (applyStatusPatch patch a).dateTime = a.dateTime ∧
        (applyStatusPatch patch a).duration = a.duration ∧
        (applyStatusPatch patch a).reason = a.reason ∧
        (applyStatusPatch patch a).location = a.location ∧
        (applyStatusPatch patch a).price = a.price ∧
        (applyStatusPatch patch a).notes = a.notes ∧
        (applyStatusPatch patch a).email = a.email ∧
        (applyStatusPatch patch a).phone = a.phone ∧
        (applyStatusPatch patch a).createdAt = a.createdAt ∧
        (match patch with
         | .status s => (applyStatusPatch patch a).status = s ∧
             (applyStatusPatch patch a).isRated = a.isRated
         | .isRated b => (applyStatusPatch patch a).isRated = b ∧
             (applyStatusPatch patch a).status = a.status)) := by
  constructor
  · intro hf
    simp [updateAppointmentStatus, toObjectId_valid hv, ebind_ok, ethrow, hf]
  · intro a ha
    obtain ⟨pre, post, hsplit, hpre, hupd⟩ :=
      find?_updateFirst_decomp (fun a2 => a2._id == id) (applyStatusPatch patch) ha
    refine ⟨pre, post, { st with appointments := updateFirst (fun a2 => a2._id == id) (applyStatusPatch patch) st.appointments }, ?_, hsplit, ?_, rfl, rfl, rfl, ?_⟩
    · simp [updateAppointmentStatus, toObjectId_valid hv, ebind_ok, epure, ha]
    · simpa using hupd
    · cases patch <;> simp [applyStatusPatch]

theorem update_status_narrow_witness :
    ∃ pre post st2,
      updateAppointmentStatus stU hexC (.status "cancelled") = .ok st2 ∧
      stU.appointments = pre ++ appt1 :: post ∧
      st2.appointments = pre ++ applyStatusPatch (.status "cancelled") appt1 :: post ∧
      st2.pets = stU.pets ∧ st2.providers = stU.providers ∧ st2.chat = stU.chat ∧
      (applyStatusPatch (.status "cancelled") appt1)._id = appt1._id ∧
      (applyStatusPatch (.status "cancelled") appt1).pet = appt1.pet ∧
      (applyStatusPatch (.status "cancelled") appt1).provider = appt1.provider ∧
      (applyStatusPatch (.status "cancelled") appt1).service = appt1.service ∧
      (applyStatusPatch (.status "cancelled") appt1).dateTime = appt1.dateTime ∧
      (applyStatusPatch (.status "cancelled") appt1).duration = appt1.duration ∧
      (applyStatusPatch (.status "cancelled") appt1).reason = appt1.reason ∧
      (applyStatusPatch (.status "cancelled") appt1).location = appt1.location ∧
      (applyStatusPatch (.status "cancelled") appt1).price = appt1.price ∧
      (applyStatusPatch (.status "cancelled") appt1).notes = appt1.notes ∧
      (applyStatusPatch (.status "cancelled") appt1).email = appt1.email ∧
      (applyStatusPatch (.status "cancelled") appt1).phone = appt1.phone ∧
      (applyStatusPatch (.status "cancelled") appt1).createdAt = appt1.createdAt ∧
      ((applyStatusPatch (.status "cancelled") appt1).status = "cancelled" ∧
        (applyStatusPatch (.status "cancelled") appt1).isRated = appt1.isRated) :=
  (update_status_narrow stU hexC (.status "cancelled") (by decide)).2 appt1 (by decide)

theorem provisionRoom_missing (chat : ChatSt) (cf : Bool) (petName : String)
    (pu tu : Option String)
    (h : presentStr pu = none ∨ presentStr tu = none) :
    provisionRoom chat cf petName pu tu = .ok chat := by
  unfold provisionRoom
  rcases h with h | h
  · rw [h]
  · rw [h]
    cases presentStr pu <;> rfl

theorem sideEffectRooms_missing_user (env : Env) (st : St) (f : Faults)
    (dto : CreateAppointmentDto)
    (h : presentStr (petLinkedTutorUserId env st dto.pet) = none ∨
         presentStr (providerLinkedUserId st dto.provider) = none) :
    (match sideEffectRooms env st f dto with
     | .ok c => c
     | .error _ => st.chat) = st.chat := by
  unfold sideEffectRooms
  cases hfp : f.petLookup with
  | true => rfl
  | false =>
    cases hfpr : f.providerLookup with
    | true => rfl
    | false =>
      cases hpt : (st.pets.find? (fun p => p._id == dto.pet)).bind
          (fun p => presentStr p.tutorId) with
      | none =>
        rw [provisionRoom_missing _ _ _ _ none (Or.inr rfl)]
        rfl
      | some tid =>
        cases hft : f.tutorLookup with
        | true => rfl
        | false =>
          have hlinked : petLinkedTutorUserId env st dto.pet =
              (env.tutorById tid).bind (fun t => t.userId) := by
            unfold petLinkedTutorUserId
            rw [hpt]
          have h2 : presentStr ((st.providers.find? (fun p => p._id == dto.provider)).bind
                (fun p => p.userId)) = none ∨
              presentStr ((env.tutorById tid).bind (fun t => t.userId)) = none := by
            rcases h with h | h
            · exact Or.inr (hlinked ▸ h)
            · exact Or.inl h
          show (match provisionRoom st.chat f.chat
              (match st.pets.find? (fun p => p._id == dto.pet) with
                | some p => p.nome | none => "Pet")
              ((st.providers.find? (fun p => p._id == dto.provider)).bind
                (fun p => p.userId))
              ((env.tutorById tid).bind (fun t => t.userId)) with
            | Except.ok c => c
            | Except.error _ => st.chat) = st.chat
          rw [provisionRoom_missing _ _ _ _ _ h2]

/-- C1: with the referenced pet and provider existing, `create` always
succeeds, persisting and returning the created appointment no matter how
the chat-room side-effect path behaves (any combination of rejecting
external calls is swallowed by the catch); and when the pet has no linked
tutor user or the provider has no linked user, the chat state — in
particular the room collection — is untouched. -/
theorem create_succeeds_and_swallows (env : Env) (st : St) (f : Faults)
    (dto : CreateAppointmentDto)
    (hvp : objectIdValid dto.pet = true)
    (hvr : objectIdValid dto.provider = true)
    (hpe : st.pets.any (fun p => p._id == dto.pet) = true)
    (hpr : st.providers.any (fun p => p._id == dto.provider) = true) :
    ∃ st2,
      create env st f dto = .ok (mkAppointment env st dto, st2) ∧
      st2.appointments = st.appointments ++ [mkAppointment env st dto] ∧
      ((presentStr (petLinkedTutorUserId env st dto.pet) = none ∨
        presentStr (providerLinkedUserId st dto.provider) = none) →
        st2.chat = st.chat) := by
  refine ⟨{ st with
      appointments := st.appointments ++ [mkAppointment env st dto]
      nextApptId := st.nextApptId + 1
      chat := match sideEffectRooms env { st with appointments := st.appointments ++ [mkAppointment env st dto], nextApptId := st.nextApptId + 1 } f dto with | .ok c => c | .error _ => st.chat },
    ?_, rfl, ?_⟩
  · simp only [create, assertPet, assertProvider, toObjectId_valid hvp,
      toObjectId_valid hvr, hpe, hpr, ebind_ok, epure, if_true]
    rfl
  · intro h
    exact sideEffectRooms_missing_user env
      { st with
        appointments := st.appointments ++ [mkAppointment env st dto]
        nextApptId := st.nextApptId + 1 } f dto h

theorem create_succeeds_and_swallows_witness :
    objectIdValid dto1.pet = true ∧
    (∃ st2,
      create env0 st1 {} dto1 = .ok (mkAppointment env0 st1 dto1, st2) ∧
      st2.appointments = st1.appointments ++ [mkAppointment env0 st1 dto1] ∧
      ((presentStr (petLinkedTutorUserId env0 st1 dto1.pet) = none ∨
        presentStr (providerLinkedUserId st1 dto1.provider) = none) →
        st2.chat = st1.chat)) :=
  ⟨by decide,
    create_succeeds_and_swallows env0 st1 {} dto1 (by decide) (by decide)
      (by decide) (by decide)⟩

/-- C4: on the tutor-scoped listing over a tutor owning at least one pet,
the returned envelope has exactly the total and pages of the underlying
unjoined `findAll` over that tutor's pet ids, its items are those of the
base query, and each item's `isReviewed` flag is true exactly when its
appointment id is among the ids the review lookup returns for this tutor
and the returned page's appointment ids. -/
theorem tutor_listing_review_join (env : Env) (st : St) (tutorId : String)
    (q : QueryAppointmentDto) (envl : Envelope Enriched)
    (hpets : env.petsByTutor tutorId ≠ [])
    (hres : findAllByTutorId env st tutorId q = .ok envl) :
    ∃ base,
      findAll env st
        (petQueryOf q ((env.petsByTutor tutorId).map (fun p => p._id))) = .ok base ∧
      envl.total = base.total ∧ envl.pages = base.pages ∧
      envl.items.map (fun it => it.appt) = base.items ∧
      (∀ it ∈ envl.items,
        it.isReviewed =
          (env.reviewedAppointments tutorId
            (base.items.map (fun a => a._id))).contains it.appt._id) := by
  have hlen : ¬((env.petsByTutor tutorId).length = 0) := by
    simpa [List.length_eq_zero] using hpets
  cases hb : findAll env st
      (petQueryOf q ((env.petsByTutor tutorId).map (fun p => p._id))) with
  | error e =>
    simp [findAllByTutorId, hlen, hb, ebind_err, ebind_ok, epure] at hres
  | ok base =>
    simp only [findAllByTutorId, hlen, if_false, hb, ebind_ok, epure,
      Except.ok.injEq] at hres
    subst hres
    refine ⟨base, rfl, rfl, rfl, ?_, ?_⟩
    · rw [List.map_map]
      exact List.map_id base.items
    · intro it hit
      obtain ⟨a2, ha2, rfl⟩ := List.mem_map.mp hit
      simp [List.contains, List.elem_eq_mem]

theorem tutor_listing_review_join_witness :
    env4.petsByTutor "tutor-1" ≠ [] ∧
    (∃ base,
      findAll env4 st0
        (petQueryOf q0 ((env4.petsByTutor "tutor-1").map (fun p => p._id))) = .ok base ∧
      (⟨[], 0, .num (some 1), .num (some 20), .num (some 0)⟩ :
        Envelope Enriched).total = base.total ∧
      (⟨[], 0, .num (some 1), .num (some 20), .num (some 0)⟩ :
        Envelope Enriched).pages = base.pages ∧
      (⟨[], 0, .num (some 1), .num (some 20), .num (some 0)⟩ :
        Envelope Enriched).items.map (fun it => it.appt) = base.items ∧
      (∀ it ∈ (⟨[], 0, .num (some 1), .num (some 20), .num (some 0)⟩ :
          Envelope Enriched).items,
        it.isReviewed =
          (env4.reviewedAppointments "tutor-1"
            (base.items.map (fun a => a._id))).contains it.appt._id)) :=
  ⟨by decide,
    tutor_listing_review_join env4 st0 "tutor-1" q0
      ⟨[], 0, .num (some 1), .num (some 20), .num (some 0)⟩
      (by decide) (by rfl)⟩
